import Mathlib

/-!
# Verification of the faust LiveCheck application wiring

A shallow embedding of `src/faust/livecheck/app.py` (class `LiveCheck`).
Python strings are modelled as `List Char` (Python indexes and slices
strings by code point, exactly as `List Char` does).  Python exceptions
become an explicit error type returned through `Except`.  The mutable
`cases` dictionary is modelled as a lookup function updated functionally.
Behaviour that lives in other modules of the repository
(`faust/livecheck/case.py`, `faust/livecheck/models.py`) is kept abstract:
case bodies and signal resolvers enter the dispatch loops as function
parameters, and `TestExecution.as_headers()` is a field of the model.
-/

/-- Python exceptions raised (or propagated) by the code under study.
`liveCheckError` stands for the `LiveCheckError` class and all of its
subclasses (`TestFailed`, `TestTimeout`, ...), the domain-level test
failures; `otherError` stands for any unrelated exception a case body
might raise. -/
inductive PyErr where
  | runtimeError (msg : List Char)
  | typeError (msg : List Char)
  | keyError (key : List Char)
  | liveCheckError (kind : List Char)
  | otherError (msg : List Char)
deriving DecidableEq, Repr

/-- The specification's abstract `ConfigurationError` category: per its
error-handling section it is "missing origin for a placeholder-named case,
or a message transport lacking header support", which in the source are
the `RuntimeError` raised by `_prepare_case_name` and the `TypeError`
raised by `on_produce_attach_test_headers`. -/
def isConfigurationError : PyErr → Bool
  | .runtimeError _ => true
  | .typeError _ => true
  | _ => false

/-- Membership in the `LiveCheckError` exception family, the only family
caught by the test dispatcher's `except LiveCheckError` clause. -/
def isLiveCheckError : PyErr → Bool
  | .liveCheckError _ => true
  | _ => false

/-- `haystack.startswith(pattern)` on code-point lists, as Python's
`str.startswith`. -/
def startsWithChars : List Char → List Char → Bool
  | _, [] => true
  | [], _ :: _ => false
  | a :: as, b :: bs => a == b && startsWithChars as bs

/-- The placeholder marker `'__main__.'` tested by `_prepare_case_name`. -/
def mainDotMark : List Char := ['_', '_', 'm', 'a', 'i', 'n', '_', '_', '.']

/-- The module marker `'__main__'` (no trailing dot). -/
def mainMark : List Char := ['_', '_', 'm', 'a', 'i', 'n', '_', '_']

/-- The message of the `RuntimeError` raised when the origin is missing. -/
def missingOriginMsg : List Char :=
  "LiveCheck app missing origin argument".toList

/-- The relevant slice of the application configuration: `self.conf.origin`
is `Optional[str]` in faust. -/
structure Conf where
  origin : Option (List Char)
deriving DecidableEq, Repr

/-- Python truthiness of `self.conf.origin` as used in
`if not self.conf.origin:` — falsy when `None` or the empty string. -/
def originFalsy : Option (List Char) → Bool
  | none => true
  | some s => s.isEmpty

/-- `LiveCheck._prepare_case_name` (app.py lines 310-315):

    def _prepare_case_name(self, name: str) -> str:
        if name.startswith('__main__.'):
            if not self.conf.origin:
                raise RuntimeError('LiveCheck app missing origin argument')
            return self.conf.origin + name[8:]
        return name
-/
def _prepare_case_name (conf : Conf) (name : List Char) :
    Except PyErr (List Char) :=
  if startsWithChars name mainDotMark then
    if originFalsy conf.origin then
      .error (.runtimeError missingOriginMsg)
    else
      .ok (conf.origin.getD [] ++ name.drop 8)
  else
    .ok name

/-- A test execution as used by this module: its id and case name
(`models.py` fields), and the serialized identity-and-metadata headers its
`as_headers()` call produces (the serialization itself lives in
`models.py`, outside the module under study, so it is carried abstractly
as data). -/
structure TestExecutionM where
  id : List Char
  case_name : List Char
  as_headers : List (List Char × List Char)
deriving DecidableEq, Repr

/-- A signal event as used by the bus dispatcher: only its `case_name`
field is read or written in this module. -/
structure SignalEventM where
  case_name : List Char
deriving DecidableEq, Repr

/-- The slice of a registered `Case` that this module touches: its unique
name (the registry key), plus its `active` flag so that two distinct
registered definitions can share a name. -/
structure CaseM where
  name : List Char
  active : Option Bool := none
deriving DecidableEq, Repr

/-- The `self.cases` dictionary, as its lookup function. -/
def CaseDict := List Char → Option CaseM

/-- The state of a `LiveCheck` application that the dispatch loops read:
its configuration and its case registry. -/
structure LiveCheckState where
  conf : Conf
  cases : CaseDict

/-- `LiveCheck.add_case` (app.py lines 263-265): store the case in the
registry under its name (silently replacing any previous entry, as a
Python dict assignment does) and return it. -/
def add_case (cases : CaseDict) (case : CaseM) : CaseDict × CaseM :=
  (fun n => if n = case.name then some case else cases n, case)

/-- `LiveCheck.on_produce_attach_test_headers` (app.py lines 170-185),
acting on the current test (from `current_test()`) and the produce
request's `headers` argument; Python mutates the headers list in place,
the model returns the list as left after the call.

        test = current_test()
        if test is not None:
            if headers is None:
                raise TypeError('Produce request missing headers list')
            headers.extend([
                (k, want_bytes(v)) for k, v in test.as_headers().items()
            ])
-/
def on_produce_attach_test_headers
    (current : Option TestExecutionM)
    (headers : Option (List (List Char × List Char))) :
    Except PyErr (Option (List (List Char × List Char))) :=
  match current with
  | none => .ok headers
  | some test =>
    match headers with
    | none => .error (.typeError "Produce request missing headers list".toList)
    | some hs => .ok (some (hs ++ test.as_headers))

/-- `LiveCheck.post_report` (app.py lines 267-271): the key/value pair
sent on the reports channel — keyed by the originating test's id, or
`None` when the report carries no test reference. -/
structure TestReportM where
  test : Option TestExecutionM
deriving DecidableEq, Repr

def post_report (report : TestReportM) :
    Option (List Char) × TestReportM :=
  (report.test.map TestExecutionM.id, report)

/-- Modelled from the spec: the report-emission path that invokes
`LiveCheck.post_report` lives in the case runner (`faust/livecheck`
modules outside `app.py`); per the spec's Report Emitter section it
publishes a completed execution's report "only if reporting is enabled by
configuration", the `send_reports` flag declared in `app.py`.  Returns the
pair sent on the report channel, or `none` when reporting is disabled. -/
def maybe_post_report (send_reports : Bool) (report : TestReportM) :
    Option (Option (List Char) × TestReportM) :=
  if send_reports then some (post_report report) else none

/-- `LiveCheck._execute_tests` (app.py lines 301-308) over a finite stream
of `(test_id, test)` items.  `exec` abstracts `Case.execute`
(`case.py`, outside this module): for the looked-up case and the test
(whose `case_name` the loop has rewritten in place), it either returns or
raises.

        async for test_id, test in tests.items():
            test.case_name = self._prepare_case_name(test.case_name)
            case = self.cases[test.case_name]
            try:
                await case.execute(test)
            except LiveCheckError:
                pass
-/
def _execute_tests (st : LiveCheckState)
    (exec : CaseM → TestExecutionM → Except PyErr Unit) :
    List (List Char × TestExecutionM) → Except PyErr Unit
  | [] => .ok ()
  | (_, test) :: rest =>
    match _prepare_case_name st.conf test.case_name with
    | .error e => .error e
    | .ok cname =>
      match st.cases cname with
      | none => .error (.keyError cname)
      | some case =>
        match exec case { test with case_name := cname } with
        | .ok _ => _execute_tests st exec rest
        | .error e =>
          if isLiveCheckError e then _execute_tests st exec rest
          else .error e

/-- `LiveCheck._populate_signals` (app.py lines 295-299) over a finite
stream of `(test_id, event)` items.  `resolve` abstracts
`Case.resolve_signal` (`case.py`).  Note: no try/except here at all.

        async for test_id, event in events.items():
            event.case_name = self._prepare_case_name(event.case_name)
            case = self.cases[event.case_name]
            await case.resolve_signal(test_id, event)
-/
def _populate_signals (st : LiveCheckState)
    (resolve : CaseM → List Char → SignalEventM → Except PyErr Unit) :
    List (List Char × SignalEventM) → Except PyErr Unit
  | [] => .ok ()
  | (test_id, event) :: rest =>
    match _prepare_case_name st.conf event.case_name with
    | .error e => .error e
    | .ok cname =>
      match st.cases cname with
      | none => .error (.keyError cname)
      | some case =>
        match resolve case test_id { event with case_name := cname } with
        | .ok _ => _populate_signals st resolve rest
        | .error e => .error e

/-- A signal object as handled by the `case` decorator: its name and the
mutable ordinal index the decorator assigns. -/
structure SignalM where
  name : List Char
  index : Nat
deriving DecidableEq, Repr

/-- The signal-assignment loop of `LiveCheck.case` (app.py lines 211-221),
starting at enumeration counter `i`.  Input: the signal-typed attribute
names yielded by `_extract_signals` in declaration order, each paired with
the attribute's pre-existing value (`getattr(case_cls, attr_name, None)`).
Output: first, the signal bound to each attribute after the loop, in
declaration order; second, the `signals` list accumulated for the `Case`
constructor (only freshly created signals are appended).

        for i, attr_name in enumerate(signal_names):
            signal = getattr(case_cls, attr_name, None)
            if signal is None:
                signal = self.Signal(name=attr_name, index=i + 1)
                setattr(case_cls, attr_name, signal)
                signals.append(signal)
            else:
                signal.index = i + 1
-/
def assign_signals_from (i : Nat) :
    List (List Char × Option SignalM) → List SignalM × List SignalM
  | [] => ([], [])
  | (attr, pre) :: rest =>
    let tail := assign_signals_from (i + 1) rest
    match pre with
    | none =>
      let s : SignalM := ⟨attr, i + 1⟩
      (s :: tail.1, s :: tail.2)
    | some sg =>
      ({ sg with index := i + 1 } :: tail.1, tail.2)

/-- The signal-assignment loop, from counter 0 as `enumerate` starts. -/
def assign_signals (decls : List (List Char × Option SignalM)) :
    List SignalM × List SignalM :=
  assign_signals_from 0 decls

/-- The fresh signals created by the loop for attributes with no
pre-existing value, with their assigned indices, counting from `i`. -/
def selectFresh (i : Nat) :
    List (List Char × Option SignalM) → List SignalM
  | [] => []
  | (attr, none) :: rest => ⟨attr, i + 1⟩ :: selectFresh (i + 1) rest
  | (_, some _) :: rest => selectFresh (i + 1) rest

/-! ## Helper lemmas on the string model -/

theorem startsWithChars_iff (h p : List Char) :
    startsWithChars h p = true ↔ ∃ t, h = p ++ t := by
  induction p generalizing h with
  | nil => simp [startsWithChars]
  | cons b bs ih =>
    cases h with
    | nil => simp [startsWithChars]
    | cons a as => simp [startsWithChars, ih, List.cons_eq_cons]

theorem not_mainDot_of_append (origin rest : List Char)
    (h0 : origin ≠ [])
    (h1 : startsWithChars origin mainMark = false) :
    startsWithChars (origin ++ '.' :: rest) mainDotMark = false := by
  rcases origin with _ | ⟨c1, _ | ⟨c2, _ | ⟨c3, _ | ⟨c4, _ |
    ⟨c5, _ | ⟨c6, _ | ⟨c7, _ | ⟨c8, tail⟩⟩⟩⟩⟩⟩⟩⟩
  · exact absurd rfl h0
  · simp [startsWithChars, mainDotMark]
  · simp [startsWithChars, mainDotMark]
  · simp [startsWithChars, mainDotMark]
  · simp [startsWithChars, mainDotMark]
  · simp [startsWithChars, mainDotMark]
  · simp [startsWithChars, mainDotMark]
  · simp [startsWithChars, mainDotMark]
  · simp only [startsWithChars, mainDotMark, mainMark, List.cons_append,
      Bool.and_eq_false_iff] at h1 ⊢
    tauto

theorem drop8_mainDot (t : List Char) :
    List.drop 8 (mainDotMark ++ t) = '.' :: t := rfl

/-- C1: for every name starting with `'__main__.'` (written here as
`mainDotMark ++ suffix`), if the application has a configured (truthy)
origin then `_prepare_case_name` returns the origin joined with the
declared suffix (`origin ++ '.' ++ suffix`, so `Foo` under origin
`pkg.mod` resolves to `pkg.mod.Foo`); if no origin is configured,
resolution fails with the error the spec calls `ConfigurationError`. -/
theorem c1_case_name_resolution (conf : Conf) (suffix : List Char) :
    (originFalsy conf.origin = false →
      _prepare_case_name conf (mainDotMark ++ suffix) =
        .ok (conf.origin.getD [] ++ '.' :: suffix)) ∧
    (originFalsy conf.origin = true →
      ∃ e, _prepare_case_name conf (mainDotMark ++ suffix) = .error e ∧
        isConfigurationError e = true) := by
  have hpre : startsWithChars (mainDotMark ++ suffix) mainDotMark = true :=
    (startsWithChars_iff _ _).mpr ⟨suffix, rfl⟩
  constructor
  · intro hfalsy
    simp [_prepare_case_name, hpre, hfalsy, drop8_mainDot]
  · intro hfalsy
    refine ⟨.runtimeError missingOriginMsg, ?_, rfl⟩
    simp [_prepare_case_name, hpre, hfalsy]

/-- C1 witness: under origin `pkg.mod` the placeholder name
`__main__.Foo` resolves to `pkg.mod.Foo`; with no origin it fails with a
configuration error. -/
theorem c1_case_name_resolution_witness :
    _prepare_case_name ⟨some "pkg.mod".toList⟩ ("__main__.Foo".toList) =
      .ok "pkg.mod.Foo".toList ∧
    ∃ e, _prepare_case_name ⟨none⟩ ("__main__.Foo".toList) = .error e ∧
      isConfigurationError e = true := by
  have hname : ("__main__.Foo".toList : List Char) =
      mainDotMark ++ "Foo".toList := rfl
  constructor
  · rw [hname]
    exact ((c1_case_name_resolution ⟨some "pkg.mod".toList⟩
      "Foo".toList).1 rfl).trans rfl
  · rw [hname]
    exact (c1_case_name_resolution ⟨none⟩ "Foo".toList).2 rfl

/-- C10: a case name that does not start with `'__main__.'` is returned
unchanged by `_prepare_case_name`, never failing, whatever the origin;
and whenever the configured origin does not itself start with
`'__main__'`, resolution is idempotent: a successfully resolved name
resolves again to itself. -/
theorem c10_prepare_case_name_idempotent (conf : Conf)
    (name resolved : List Char) :
    (startsWithChars name mainDotMark = false →
      _prepare_case_name conf name = .ok name) ∧
    (startsWithChars (conf.origin.getD []) mainMark = false →
      _prepare_case_name conf name = .ok resolved →
      _prepare_case_name conf resolved = .ok resolved) := by
  constructor
  · intro hpre
    simp [_prepare_case_name, hpre]
  · intro horigin hok
    rcases hsw : startsWithChars name mainDotMark with _ | _
    · rw [_prepare_case_name, hsw] at hok
      simp only [Bool.false_eq_true, if_false] at hok
      cases hok
      simp [_prepare_case_name, hsw]
    · rw [_prepare_case_name, hsw] at hok
      simp only [if_true] at hok
      rcases hfalsy : originFalsy conf.origin with _ | _
      · rw [hfalsy] at hok
        simp only [Bool.false_eq_true, if_false, Except.ok.injEq] at hok
        obtain ⟨t, ht⟩ := (startsWithChars_iff _ _).mp hsw
        subst ht
        have hres : resolved = conf.origin.getD [] ++ '.' :: t := by
          rw [← hok, drop8_mainDot]
        obtain ⟨s, hs⟩ : ∃ s, conf.origin = some s := by
          cases h : conf.origin with
          | none => rw [h] at hfalsy; simp [originFalsy] at hfalsy
          | some s => exact ⟨s, rfl⟩
        have hs_ne : s ≠ [] := by
          rw [hs] at hfalsy
          simpa [originFalsy, List.isEmpty_iff] using hfalsy
        have hgd : conf.origin.getD [] = s := by rw [hs]; rfl
        have hnot : startsWithChars resolved mainDotMark = false := by
          rw [hres, hgd]
          exact not_mainDot_of_append s t hs_ne (by rwa [hgd] at horigin)
        simp [_prepare_case_name, hnot]
      · rw [hfalsy] at hok
        simp at hok

/-- C10 witness: under origin `pkg.mod`, the non-placeholder name
`orders` resolves to itself, and the already-resolved `pkg.mod.Foo`
(the image of `__main__.Foo`) resolves again to itself. -/
theorem c10_prepare_case_name_idempotent_witness :
    _prepare_case_name ⟨some "pkg.mod".toList⟩ "orders".toList =
      .ok "orders".toList ∧
    _prepare_case_name ⟨some "pkg.mod".toList⟩ "pkg.mod.Foo".toList =
      .ok "pkg.mod.Foo".toList := by
  constructor
  · exact (c10_prepare_case_name_idempotent ⟨some "pkg.mod".toList⟩
      "orders".toList "orders".toList).1 rfl
  · exact (c10_prepare_case_name_idempotent ⟨some "pkg.mod".toList⟩
      "__main__.Foo".toList "pkg.mod.Foo".toList).2 rfl rfl

/-- C2: in the test dispatcher's stream loop, if executing one test
raises a domain-level `LiveCheckError`, the loop catches it and continues
with the rest of the stream exactly as if the failing request were absent:
a single failing test never terminates the worker loop and does not
affect any other test in the stream. -/
theorem c2_test_failure_isolation (st : LiveCheckState)
    (exec : CaseM → TestExecutionM → Except PyErr Unit)
    (tid : List Char) (test : TestExecutionM)
    (rest : List (List Char × TestExecutionM))
    (cname : List Char) (case : CaseM)
    (h1 : _prepare_case_name st.conf test.case_name = .ok cname)
    (h2 : st.cases cname = some case)
    (h3 : ∃ e, exec case { test with case_name := cname } = .error e ∧
      isLiveCheckError e = true) :
    _execute_tests st exec ((tid, test) :: rest) =
      _execute_tests st exec rest := by
  obtain ⟨e, he, hlc⟩ := h3
  simp [_execute_tests, h1, h2, he, hlc]

/-- C2 witness: a stream holding one test whose execution raises a
`LiveCheckError` is processed to completion, leaving the loop alive. -/
theorem c2_test_failure_isolation_witness :
    _execute_tests
      ⟨⟨some "pkg.mod".toList⟩,
        fun n => if n = "orders".toList then some ⟨"orders".toList, none⟩ else none⟩
      (fun _ _ => .error (.liveCheckError "TestFailed".toList))
      [("t1".toList, ⟨"t1".toList, "orders".toList, []⟩)] = .ok () := by
  exact (c2_test_failure_isolation
      ⟨⟨some "pkg.mod".toList⟩,
        fun n => if n = "orders".toList then some ⟨"orders".toList, none⟩ else none⟩
      (fun _ _ => .error (.liveCheckError "TestFailed".toList))
      "t1".toList ⟨"t1".toList, "orders".toList, []⟩ []
      "orders".toList ⟨"orders".toList, none⟩
      rfl (by simp)
      ⟨.liveCheckError "TestFailed".toList, rfl, rfl⟩).trans rfl

/-- C3: when a test-execution request or a signal event carries a
(resolved) case name absent from the registry, the dispatching loop fails
with the unknown-case error (Python `KeyError` from the `self.cases`
lookup): it escapes whatever per-test handler (`exec`/`resolve`) is in
place, is not a `LiveCheckError` test outcome, and the loop stops without
reprocessing the message. -/
theorem c3_unknown_case_propagates (st : LiveCheckState)
    (exec : CaseM → TestExecutionM → Except PyErr Unit)
    (resolve : CaseM → List Char → SignalEventM → Except PyErr Unit)
    (tid tid2 : List Char) (test : TestExecutionM) (event : SignalEventM)
    (trest : List (List Char × TestExecutionM))
    (erest : List (List Char × SignalEventM))
    (cname cname2 : List Char)
    (h1 : _prepare_case_name st.conf test.case_name = .ok cname)
    (h2 : st.cases cname = none)
    (h3 : _prepare_case_name st.conf event.case_name = .ok cname2)
    (h4 : st.cases cname2 = none) :
    _execute_tests st exec ((tid, test) :: trest) =
      .error (.keyError cname) ∧
    _populate_signals st resolve ((tid2, event) :: erest) =
      .error (.keyError cname2) ∧
    isLiveCheckError (.keyError cname) = false := by
  refine ⟨?_, ?_, rfl⟩
  · simp [_execute_tests, h1, h2]
  · simp [_populate_signals, h3, h4]

/-- C3 witness: with an empty registry, both loops fail with the
unknown-case error on a request naming `orders`, for any handler. -/
theorem c3_unknown_case_propagates_witness :
    _execute_tests ⟨⟨some "pkg.mod".toList⟩, fun _ => none⟩
      (fun _ _ => .ok ())
      [("t1".toList, ⟨"t1".toList, "orders".toList, []⟩)] =
      .error (.keyError "orders".toList) ∧
    _populate_signals ⟨⟨some "pkg.mod".toList⟩, fun _ => none⟩
      (fun _ _ _ => .ok ())
      [("t1".toList, ⟨"orders".toList⟩)] =
      .error (.keyError "orders".toList) ∧
    isLiveCheckError (.keyError "orders".toList) = false := by
  exact c3_unknown_case_propagates
    ⟨⟨some "pkg.mod".toList⟩, fun _ => none⟩
    (fun _ _ => .ok ()) (fun _ _ _ => .ok ())
    "t1".toList "t1".toList
    ⟨"t1".toList, "orders".toList, []⟩ ⟨"orders".toList⟩ [] []
    "orders".toList "orders".toList rfl rfl rfl rfl

/-- C4: when a test execution is the current context, the produce hook
appends that execution's serialized identity-and-metadata headers after
the message's existing headers; if the message has no header list, it
fails with the error the spec calls `ConfigurationError`. -/
theorem c4_headers_attached_on_produce (test : TestExecutionM)
    (hs : List (List Char × List Char)) :
    on_produce_attach_test_headers (some test) (some hs) =
      .ok (some (hs ++ test.as_headers)) ∧
    ∃ e, on_produce_attach_test_headers (some test) none = .error e ∧
      isConfigurationError e = true := by
  exact ⟨rfl, ⟨.typeError "Produce request missing headers list".toList,
    rfl, rfl⟩⟩

/-- C7: with no current test execution, the produce hook leaves the
headers argument entirely unchanged and raises no error, even when the
header list is `None`. -/
theorem c7_no_context_headers_unchanged
    (headers : Option (List (List Char × List Char))) :
    on_produce_attach_test_headers none headers = .ok headers := rfl

/-! ## Lemmas about the signal-assignment loop -/

theorem chain'_lt_range' (s n : Nat) :
    List.Chain' (· < ·) (List.range' s n) := by
  cases n with
  | zero => simp
  | succ m =>
    rw [List.range'_succ]
    exact List.chain_lt_range' s m (by norm_num)

theorem assign_signals_from_indices (i : Nat)
    (decls : List (List Char × Option SignalM)) :
    ((assign_signals_from i decls).1.map SignalM.index) =
      List.range' (i + 1) decls.length := by
  induction decls generalizing i with
  | nil => rfl
  | cons d rest ih =>
    obtain ⟨attr, pre⟩ := d
    cases pre with
    | none => simp [assign_signals_from, ih, List.range'_succ]
    | some sg => simp [assign_signals_from, ih, List.range'_succ]

theorem assign_signals_from_fresh (i : Nat)
    (decls : List (List Char × Option SignalM)) :
    (assign_signals_from i decls).2 = selectFresh i decls := by
  induction decls generalizing i with
  | nil => rfl
  | cons d rest ih =>
    obtain ⟨attr, pre⟩ := d
    cases pre with
    | none => simp [assign_signals_from, selectFresh, ih]
    | some sg => simp [assign_signals_from, selectFresh, ih]

theorem assign_signals_from_pre (i : Nat)
    (decls : List (List Char × Option SignalM)) (k : Nat)
    (attr : List Char) (sg : SignalM)
    (h : decls[k]? = some (attr, some sg)) :
    (assign_signals_from i decls).1[k]? =
      some { sg with index := i + k + 1 } := by
  induction decls generalizing i k with
  | nil => simp at h
  | cons d rest ih =>
    cases k with
    | zero =>
      simp only [List.getElem?_cons_zero, Option.some.injEq] at h
      subst h
      simp [assign_signals_from]
    | succ k =>
      simp only [List.getElem?_cons_succ] at h
      obtain ⟨dattr, dpre⟩ := d
      have := ih (i + 1) k h
      have harith : i + 1 + k + 1 = i + (k + 1) + 1 := by omega
      rw [harith] at this
      cases dpre with
      | none => simpa [assign_signals_from] using this
      | some dsg => simpa [assign_signals_from] using this

theorem assign_signals_from_new (i : Nat)
    (decls : List (List Char × Option SignalM)) (k : Nat)
    (attr : List Char)
    (h : decls[k]? = some (attr, none)) :
    (assign_signals_from i decls).1[k]? =
      some ⟨attr, i + k + 1⟩ := by
  induction decls generalizing i k with
  | nil => simp at h
  | cons d rest ih =>
    cases k with
    | zero =>
      simp only [List.getElem?_cons_zero, Option.some.injEq] at h
      subst h
      simp [assign_signals_from]
    | succ k =>
      simp only [List.getElem?_cons_succ] at h
      obtain ⟨dattr, dpre⟩ := d
      have := ih (i + 1) k h
      have harith : i + 1 + k + 1 = i + (k + 1) + 1 := by omega
      rw [harith] at this
      cases dpre with
      | none => simpa [assign_signals_from] using this
      | some dsg => simpa [assign_signals_from] using this

/-- C5: in the `case` decorator, every signal attribute extracted from
the declaration receives the ordinal index position + 1, so the indices
of the case's signals form, in declaration order, the strictly increasing
sequence 1, 2, 3, ..., the first declared signal having index 1. -/
theorem c5_signal_indices (decls : List (List Char × Option SignalM)) :
    ((assign_signals decls).1.map SignalM.index) =
      List.range' 1 decls.length ∧
    List.Chain' (· < ·) ((assign_signals decls).1.map SignalM.index) := by
  have h := assign_signals_from_indices 0 decls
  constructor
  · simpa [assign_signals] using h
  · rw [show (assign_signals decls).1 = (assign_signals_from 0 decls).1
      from rfl, h]
    exact chain'_lt_range' 1 decls.length

/-- C9: in the `case` decorator, an attribute already bound to a signal
has that signal's index reassigned to position + 1 but is excluded from
the `signals` list passed to the `Case` constructor; only attributes with
no pre-existing value get a fresh signal and appear in that list, so the
constructed case's `signals` argument can omit declared signals. -/
theorem c9_preexisting_signals_excluded
    (decls : List (List Char × Option SignalM)) :
    (assign_signals decls).2 = selectFresh 0 decls ∧
    (∀ (k : Nat) (attr : List Char) (sg : SignalM),
      decls[k]? = some (attr, some sg) →
      (assign_signals decls).1[k]? = some { sg with index := k + 1 }) ∧
    (∀ (k : Nat) (attr : List Char), decls[k]? = some (attr, none) →
      (assign_signals decls).1[k]? = some ⟨attr, k + 1⟩) := by
  refine ⟨assign_signals_from_fresh 0 decls, ?_, ?_⟩
  · intro k attr sg h
    simpa using assign_signals_from_pre 0 decls k attr sg h
  · intro k attr h
    simpa using assign_signals_from_new 0 decls k attr h

/-- C9 witness: for the declaration list `[ready ↦ a pre-existing signal
with stale index 5, done ↦ none]`, the pre-existing signal is reindexed
to 1 but the constructor's signals list holds only the fresh `done`
signal with index 2. -/
theorem c9_preexisting_signals_excluded_witness :
    (assign_signals
      [("ready".toList, some ⟨"ready".toList, 5⟩),
       ("done".toList, none)]).2 = [⟨"done".toList, 2⟩] ∧
    (assign_signals
      [("ready".toList, some ⟨"ready".toList, 5⟩),
       ("done".toList, none)]).1[0]? = some ⟨"ready".toList, 1⟩ ∧
    (assign_signals
      [("ready".toList, some ⟨"ready".toList, 5⟩),
       ("done".toList, none)]).1[1]? = some ⟨"done".toList, 2⟩ := by
  refine ⟨?_, ?_, ?_⟩
  · exact ((c9_preexisting_signals_excluded _).1).trans rfl
  · exact ((c9_preexisting_signals_excluded _).2.1 0 "ready".toList
      ⟨"ready".toList, 5⟩ rfl).trans rfl
  · exact (c9_preexisting_signals_excluded _).2.2 1 "done".toList rfl

/-- C6: the report emitter publishes a completed execution's report on
the report channel keyed by the originating test id — key `None` when the
report carries no test reference — and only when reporting is enabled by
the `send_reports` configuration flag. -/
theorem c6_report_publication (report : TestReportM) :
    (∀ t : TestExecutionM, report.test = some t →
      maybe_post_report true report = some (some t.id, report)) ∧
    (report.test = none →
      maybe_post_report true report = some (none, report)) ∧
    maybe_post_report false report = none := by
  refine ⟨?_, ?_, rfl⟩
  · intro t ht
    simp [maybe_post_report, post_report, ht]
  · intro ht
    simp [maybe_post_report, post_report, ht]

/-- C6 witness: with reporting enabled, a report carrying test `t1` is
sent keyed by `t1` and a report with no test reference is sent with key
`None`; with reporting disabled nothing is sent. -/
theorem c6_report_publication_witness :
    maybe_post_report true ⟨some ⟨"t1".toList, "orders".toList, []⟩⟩ =
      some (some "t1".toList, ⟨some ⟨"t1".toList, "orders".toList, []⟩⟩) ∧
    maybe_post_report true ⟨none⟩ = some (none, ⟨none⟩) ∧
    maybe_post_report false ⟨none⟩ = none := by
  refine ⟨?_, ?_, ?_⟩
  · exact (c6_report_publication ⟨some ⟨"t1".toList, "orders".toList, []⟩⟩).1
      ⟨"t1".toList, "orders".toList, []⟩ rfl
  · exact (c6_report_publication ⟨none⟩).2.1 rfl
  · exact (c6_report_publication ⟨none⟩).2.2

/-- C8: registering a second case under an already-used name silently
replaces the first in the registry (a lookup at that name yields the
second definition, no error is possible), while any registration leaves
every other name's entry unchanged. -/
theorem c8_reregistration_replaces (cases : CaseDict) (c1 c2 : CaseM)
    (h : c2.name = c1.name) :
    (add_case (add_case cases c1).1 c2).1 c1.name = some c2 ∧
    (∀ n : List Char, n ≠ c2.name →
      (add_case (add_case cases c1).1 c2).1 n = (add_case cases c1).1 n) := by
  constructor
  · simp [add_case, h]
  · intro n hn
    simp [add_case, hn]

/-- C8 witness: registering an inactive `orders` case and then an active
one under the same name leaves the active one in the registry, while the
entry under `payments` keeps whatever the first registration left. -/
theorem c8_reregistration_replaces_witness :
    (add_case (add_case (fun _ => none)
        ⟨"orders".toList, some false⟩).1
        ⟨"orders".toList, some true⟩).1 "orders".toList =
      some ⟨"orders".toList, some true⟩ ∧
    (add_case (add_case (fun _ => none)
        ⟨"orders".toList, some false⟩).1
        ⟨"orders".toList, some true⟩).1 "payments".toList =
      (add_case (fun _ => none) ⟨"orders".toList, some false⟩).1
        "payments".toList := by
  constructor
  · exact (c8_reregistration_replaces (fun _ => none)
      ⟨"orders".toList, some false⟩ ⟨"orders".toList, some true⟩ rfl).1
  · exact (c8_reregistration_replaces (fun _ => none)
      ⟨"orders".toList, some false⟩ ⟨"orders".toList, some true⟩ rfl).2
      "payments".toList (by decide)
